import Mathlib

/-!
# minlog: level gate, message composition, render task and writer loop

A shallow embedding of `log.go` (package `minlog`).

* Go strings and byte slices are modelled by `String`; every operation the
  package performs on them is concatenation, which commutes with the UTF-8
  encoding, so the model is exact for the byte sequences that reach the sink.
* `Level` is `int8` in the source. The package only compares levels, so it is
  modelled by `Int`; every `int8` value is an `Int`.
* Reference-typed fields of `MinLog` (`pool`, `out`) denote objects shared by
  every copy of the struct; they live in `System`, next to the two `MinLog`
  values that exist after `New`: the variable `m` inside `New`, which the
  refresher and the writer goroutines keep using, and the copy of it that
  `New` returns to the caller.
* The standard library is outside the package. `fmt.Sprint` is transcribed
  (`doPrint`), `fmt.Sprintf` and `time.Time.Format` are parameters (`Lib`).
-/

namespace minlog

/-- A Go pointer that may be nil. -/
abbrev Ptr (α : Type) := Option α

/-! ## Levels (log.go 11-21) -/

/-- Go `type Level int8`. -/
abbrev Level := Int

/-- Go `DebugLevel Level = iota - 1` with `iota = 0`; the next six follow. -/
def DebugLevel : Level := 0 - 1
def InfoLevel : Level := 0
def WarnLevel : Level := 1
def ErrorLevel : Level := 2
def DPanicLevel : Level := 3
def PanicLevel : Level := 4
def FatalLevel : Level := 5

/-! ## Values of type `any` and `fmt.Sprint` -/

/-- The dynamic values a caller passes for `args ...any`. -/
inductive Value where
  | nil
  | str (s : String)
  | int (n : Int)
  | bool (b : Bool)
  | slice (xs : List Value)

mutual
/-- The `%v` rendering of one operand, as `printArg` does it for the verb `v`. -/
def Value.format : Value → String
  | .nil => "<nil>"
  | .str s => s
  | .int n => toString n
  | .bool b => if b then "true" else "false"
  | .slice xs => "[" ++ Value.formatElems xs ++ "]"
/-- The elements of a slice: a space before every element but the first. -/
def Value.formatElems : List Value → String
  | [] => ""
  | x :: xs => x.format ++ Value.formatRest xs
/-- The elements after the first one of a slice. -/
def Value.formatRest : List Value → String
  | [] => ""
  | x :: xs => " " ++ x.format ++ Value.formatRest xs
end

/-- Go `arg != nil && reflect.TypeOf(arg).Kind() == reflect.String`. -/
def Value.isString : Value → Bool
  | .str _ => true
  | _ => false

/-- The loop of `fmt.(*pp).doPrint`: `buf` is the output so far, `argNum` the
index of the next operand and `prevString` whether the previous operand was a
string. A space is written between two operands when neither is a string. -/
def doPrintLoop (buf : String) (argNum : Nat) (prevString : Bool) : List Value → String
  | [] => buf
  | arg :: rest =>
    let isString := arg.isString
    let buf := if 0 < argNum ∧ !isString ∧ !prevString then buf ++ " " else buf
    let buf := buf ++ arg.format
    doPrintLoop buf (argNum + 1) isString rest

/-- Go `fmt.Sprint(a...)`. -/
def Sprint (a : List Value) : String :=
  doPrintLoop "" 0 false a

/-! ## The standard library functions the package takes as given -/

/-- An instant of the wall clock (`time.Time`). -/
abbrev Time := Nat

/-- The functions `fmt.Sprintf` and `time.Time.Format`. -/
structure Lib where
  Sprintf : String → List Value → String
  Format : Time → String → String

/-- The layout `time.RFC3339`. -/
def RFC3339 : String := "2006-01-02T15:04:05Z07:00"

/-- Wrap-around of a 64-bit signed product. -/
def wrapInt64 (x : Int) : Int :=
  (x + 2 ^ 63) % 2 ^ 64 - 2 ^ 63

/-- Go `time.Millisecond * time.Duration(interval)`, in nanoseconds. -/
def tickerDuration (interval : Int) : Int :=
  wrapInt64 (1000000 * interval)

/-! ## `bytes.Buffer` and `sync.Pool` -/

/-- Go `bytes.Buffer`: the contents are `buf[off:]`. -/
structure Buffer where
  buf : String
  off : Nat

/-- Go `bytes.NewBuffer(make([]byte, 0, 512))`; the capacity is not observable. -/
def NewBuffer : Buffer :=
  { buf := "", off := 0 }

/-- Go `b.Reset()`: `b.buf = b.buf[:0]`, `b.off = 0`. -/
def Buffer.Reset (b : Buffer) : Buffer :=
  { buf := String.mk (b.buf.data.take 0), off := 0 }

/-- Go `b.WriteString(s)`. -/
def Buffer.WriteString (b : Buffer) (s : String) : Buffer :=
  { b with buf := b.buf ++ s }

/-- Go `b.WriteByte(c)`. -/
def Buffer.WriteByte (b : Buffer) (c : Char) : Buffer :=
  { b with buf := b.buf.push c }

/-- Go `b.Bytes()`: `b.buf[b.off:]`. -/
def Buffer.Bytes (b : Buffer) : String :=
  String.mk (b.buf.data.drop b.off)

/-- Go `pool.Get()`: a pooled buffer when there is one, else `New()`. -/
def poolGet : List Buffer → Buffer × List Buffer
  | [] => (NewBuffer, [])
  | b :: rest => (b, rest)

/-- Go `pool.Put(b)`. -/
def poolPut (pool : List Buffer) (b : Buffer) : List Buffer :=
  b :: pool

/-! ## Configuration (log.go 23-72) -/

/-- An open file as `*os.File` names it. -/
abbrev osFile := Nat

structure config where
  dateformat : String
  dateUpdateInterval : Int
  minLevel : Level
  maxLevel : Level
  target : Ptr osFile

/-- The value fields of `MinLog`; `pool` and `out` are in `System`. -/
structure MinLog where
  conf : config
  logTime : String

/-- Go `type Option func(*config)`. -/
def Option := config → config

def WithTimeformat (format : String) : Option :=
  fun c => { c with dateformat := format }

def WithMinLevel (min : Level) : Option :=
  fun c => { c with minLevel := min }

def WithMaxLevel (max : Level) : Option :=
  fun c => { c with maxLevel := max }

def WithTarget (target : Ptr osFile) : Option :=
  fun c => { c with target := target }

def WithDateUpdateInterval (interval : Int) : Option :=
  fun c => { c with dateUpdateInterval := interval }

/-! ## `composeMsg` (log.go 121-131) -/

def composeMsg (lib : Lib) (msg : String) (args : List Value) : String :=
  if args.length = 0 then msg
  else if msg ≠ "" then lib.Sprintf msg args
  else Sprint args

/-! ## The sink -/

/-- The file `conf.target` points to: the bytes that reached it and, for the
call number `k` with argument `b`, how many bytes `Write` accepts (all of `b`
when the number is at least its length, otherwise a short write or an error). -/
structure File where
  data : String
  accept : Nat → String → Nat

/-- Go `(*os.File).Write(b)` as call number `k`: returns the new file state, the
count written and whether the error is non-nil. On a nil receiver the call
returns `0, ErrInvalid` and nothing is written. -/
def osFileWrite (target : Ptr osFile) (f : File) (k : Nat) (b : String) : File × Nat × Bool :=
  match target with
  | none => (f, 0, true)
  | some _ =>
    let n := min (f.accept k b) b.length
    ({ f with data := f.data ++ String.mk (b.data.take n) }, n, decide (n < b.length))

/-! ## The logger and its goroutines (log.go 74-164) -/

/-- The closure `func() []byte` that `Log` sends: its captured `msg` and
`args`. The captured receiver `l` points at the `MinLog` of the caller,
`System.handle`. -/
structure logFunc where
  msg : String
  args : List Value

/-- Everything that exists once `New` has returned. -/
structure System where
  /-- the variable `m` of `New`, used by the refresher and by `m.writer()` -/
  m : MinLog
  /-- the `MinLog` value `New` returned, the receiver of every `Log` call -/
  handle : MinLog
  /-- the `*sync.Pool` both share -/
  pool : List Buffer
  /-- the closures whose hand-off on the channel `out` has completed and which
  the writer has not run yet, oldest first; the channel is unbuffered, so the
  source never has more than one, and the list covers every such state -/
  out : List logFunc
  /-- the argument of every `target.Write` call made so far, oldest first -/
  writes : List String
  /-- the file behind `conf.target` -/
  file : File

/-- Go `New(opts...)` at instant `now`, `file` being the state of the sink.
`time.NewTicker` panics when the duration is not positive. -/
def New (lib : Lib) (now : Time) (file : File) (opts : List Option) : Except String System :=
  let conf : config :=
    { dateformat := RFC3339
      minLevel := DebugLevel
      maxLevel := FatalLevel
      dateUpdateInterval := 1000
      target := none }
  let conf := opts.foldl (fun c opt => opt c) conf
  let m : MinLog := { conf := conf, logTime := lib.Format now conf.dateformat }
  if tickerDuration conf.dateUpdateInterval ≤ 0 then
    .error "non-positive interval for NewTicker"
  else
    .ok { m := m, handle := m, pool := [], out := [], writes := [], file := file }

/-- One iteration of the refresher goroutine:
`m.logTime = time.Now().Format(conf.dateformat)`. -/
def tick (lib : Lib) (now : Time) (s : System) : System :=
  { s with m := { s.m with logTime := lib.Format now s.m.conf.dateformat } }

/-- The body of the closure built by `Log`, run with receiver `l` and the
pool; returns `b.Bytes()` and the pool after the deferred `Put`. -/
def logFunc.call (lib : Lib) (l : MinLog) (pool : List Buffer) (f : logFunc) :
    String × List Buffer :=
  let (b, pool) := poolGet pool
  let b := b.Reset
  let b := b.WriteString l.logTime
  let b := b.WriteString " [INFO] "
  let msg := composeMsg lib f.msg f.args
  let b := b.WriteString msg
  let b := b.WriteByte (Char.ofNat 10)
  (b.Bytes, poolPut pool b)

/-- Go `l.Log(level, msg, args...)`, `l` being the handle of the caller. -/
def Log (s : System) (level : Level) (msg : String) (args : List Value) : System :=
  if level < s.handle.conf.minLevel ∨ level > s.handle.conf.maxLevel then
    s
  else
    { s with out := s.out ++ [{ msg := msg, args := args }] }

/-- Go `l.Info(msg)`. -/
def Info (s : System) (msg : String) : System :=
  Log s InfoLevel msg []

/-- Go `l.Infof(msg, args)`: `args any` is passed on as one operand. -/
def Infof (s : System) (msg : String) (args : Value) : System :=
  Log s InfoLevel msg [args]

/-- One iteration of `for log := range l.out`, receiver `&m`:
`_, _ = l.conf.target.Write(log())`. With nothing to receive it waits. -/
def writerStep (lib : Lib) (s : System) : System :=
  match s.out with
  | [] => s
  | log :: rest =>
    let (bytes, pool) := log.call lib s.handle s.pool
    let (file, _, _) := osFileWrite s.m.conf.target s.file s.writes.length bytes
    { s with pool := pool, out := rest, writes := s.writes ++ [bytes], file := file }

/-- The writer loop run for `n` iterations. -/
def writer (lib : Lib) : Nat → System → System
  | 0, s => s
  | n + 1, s => writer lib n (writerStep lib s)

/-- What the goroutines and the caller can do next. -/
inductive Event where
  | tick (now : Time)
  | log (level : Level) (msg : String) (args : List Value)
  | recv

/-- One scheduling step. -/
def step (lib : Lib) (s : System) : Event → System
  | .tick now => tick lib now s
  | .log level msg args => Log s level msg args
  | .recv => writerStep lib s

/-- A schedule, followed from left to right. -/
def run (lib : Lib) (s : System) (evs : List Event) : System :=
  evs.foldl (step lib) s

/-! ## Specification-side definitions -/

/-- The operands after the first, `prev` telling whether the operand before
them is a string. -/
def restOperands (prev : Bool) : List Value → String
  | [] => ""
  | a :: rest =>
    (if a.isString || prev then "" else " ") ++ a.format ++ restOperands a.isString rest

/-- The default representations in argument order, one space between two
neighbours exactly when neither of them is a string. -/
def joinOperands : List Value → String
  | [] => ""
  | a :: rest => a.format ++ restOperands a.isString rest

/-- The bytes the closure of a record returns when it finds the pool empty. -/
def renderedLine (lib : Lib) (l : MinLog) (f : logFunc) : String :=
  (f.call lib l []).1

/-- The records a schedule hands off, in hand-off order, under `conf`. -/
def handedOff (conf : config) : List Event → List logFunc
  | [] => []
  | .log level msg args :: evs =>
    if level < conf.minLevel ∨ level > conf.maxLevel then handedOff conf evs
    else { msg := msg, args := args } :: handedOff conf evs
  | _ :: evs => handedOff conf evs

/-- The lines written so far followed by the lines of the pending records. -/
def emitted (lib : Lib) (s : System) : List String :=
  s.writes ++ s.out.map (renderedLine lib s.handle)

/-! ## Closed examples -/

/-- A library instance for closed examples: `Format` appends the instant to the
layout, so two instants give two strings; `Sprintf` returns the template and is
never reached, since the examples pass either no arguments or no template. -/
def exampleLib : Lib :=
  { Sprintf := fun msg _ => msg
    Format := fun now layout => layout ++ "@" ++ toString now }

/-- A sink that accepts every write in full. -/
def exampleFile : File :=
  { data := "", accept := fun _ b => b.length }

/-- The options of the end-to-end example. -/
def exampleOpts : List Option :=
  [WithMinLevel InfoLevel, WithMaxLevel FatalLevel, WithTarget (some 1)]

/-- The system `New(exampleOpts...)` builds at instant 0. -/
def exampleSystem : System :=
  { m := { conf := { dateformat := RFC3339, dateUpdateInterval := 1000, minLevel := InfoLevel,
                     maxLevel := FatalLevel, target := some 1 },
           logTime := "2006-01-02T15:04:05Z07:00@0" }
    handle := { conf := { dateformat := RFC3339, dateUpdateInterval := 1000,
                          minLevel := InfoLevel, maxLevel := FatalLevel, target := some 1 },
                logTime := "2006-01-02T15:04:05Z07:00@0" }
    pool := [], out := [], writes := [], file := exampleFile }

/-! ## Lemmas -/

theorem doPrintLoop_succ (buf : String) (n : Nat) (prev : Bool) (a : List Value) :
    doPrintLoop buf (n + 1) prev a = buf ++ restOperands prev a := by
  induction a generalizing buf n prev with
  | nil => simp [doPrintLoop, restOperands]
  | cons x xs ih =>
    simp only [doPrintLoop, restOperands]
    rw [ih]
    cases hx : x.isString <;> cases prev <;> simp [String.append_assoc]

theorem Sprint_eq_joinOperands (a : List Value) : Sprint a = joinOperands a := by
  cases a with
  | nil => rfl
  | cons x xs =>
    simp only [Sprint, doPrintLoop, joinOperands]
    rw [doPrintLoop_succ]
    simp

theorem intercalate_go_no_string (acc : String) (a : List Value)
    (h : ∀ x ∈ a, x.isString = false) :
    String.intercalate.go acc " " (a.map Value.format) = acc ++ restOperands false a := by
  induction a generalizing acc with
  | nil => simp [String.intercalate.go, restOperands]
  | cons x xs ih =>
    have hx : x.isString = false := h x (by simp)
    simp only [List.map, String.intercalate.go, restOperands, hx]
    rw [ih _ (fun y hy => h y (by simp [hy]))]
    simp [String.append_assoc]

theorem joinOperands_no_string (a : List Value) (h : ∀ x ∈ a, x.isString = false) :
    joinOperands a = " ".intercalate (a.map Value.format) := by
  cases a with
  | nil => rfl
  | cons x xs =>
    have hx : x.isString = false := h x (by simp)
    simp only [joinOperands, List.map, String.intercalate, hx]
    rw [intercalate_go_no_string _ _ (fun y hy => h y (by simp [hy]))]

theorem call_fst (lib : Lib) (l : MinLog) (pool : List Buffer) (f : logFunc) :
    (f.call lib l pool).1 = l.logTime ++ " [INFO] " ++ composeMsg lib f.msg f.args ++ "\n" := by
  cases pool <;>
    simp [logFunc.call, poolGet, Buffer.Reset, Buffer.WriteString, Buffer.WriteByte,
      Buffer.Bytes] <;> apply String.ext <;> simp

theorem call_fst_eq_renderedLine (lib : Lib) (l : MinLog) (pool : List Buffer) (f : logFunc) :
    (f.call lib l pool).1 = renderedLine lib l f := by
  rw [renderedLine, call_fst, call_fst]

theorem writerStep_cons (lib : Lib) (s : System) (f : logFunc) (rest : List logFunc)
    (h : s.out = f :: rest) :
    (writerStep lib s).writes = s.writes ++ [renderedLine lib s.handle f] ∧
      (writerStep lib s).out = rest ∧ (writerStep lib s).handle = s.handle ∧
      (writerStep lib s).m = s.m := by
  simp [writerStep, h, call_fst_eq_renderedLine]

theorem writerStep_nil (lib : Lib) (s : System) (h : s.out = []) : writerStep lib s = s := by
  simp [writerStep, h]

theorem writer_spec (lib : Lib) (n : Nat) (s : System) :
    (writer lib n s).writes = s.writes ++ (s.out.take n).map (renderedLine lib s.handle) ∧
      (writer lib n s).out = s.out.drop n ∧ (writer lib n s).handle = s.handle ∧
      (writer lib n s).m = s.m := by
  induction n generalizing s with
  | zero => simp [writer]
  | succ n ih =>
    cases h : s.out with
    | nil =>
      have := ih s
      simp only [writer, writerStep_nil lib s h]
      simpa [h] using this
    | cons f rest =>
      obtain ⟨h1, h2, h3, h4⟩ := writerStep_cons lib s f rest h
      obtain ⟨i1, i2, i3, i4⟩ := ih (writerStep lib s)
      simp only [writer]
      refine ⟨?_, ?_, ?_, ?_⟩
      · rw [i1, h1, h2, h3]; simp
      · rw [i2, h2]; simp
      · rw [i3, h3]
      · rw [i4, h4]

theorem step_handle (lib : Lib) (s : System) (e : Event) : (step lib s e).handle = s.handle := by
  cases e with
  | tick now => rfl
  | log level msg args => simp only [step, Log]; split <;> rfl
  | recv =>
    cases h : s.out with
    | nil => rw [step, writerStep_nil lib s h]
    | cons f rest => exact (writerStep_cons lib s f rest h).2.2.1

theorem step_emitted (lib : Lib) (s : System) (e : Event) :
    emitted lib (step lib s e) =
      emitted lib s ++ (handedOff s.handle.conf [e]).map (renderedLine lib s.handle) := by
  cases e with
  | tick now => simp [step, tick, emitted, handedOff]
  | log level msg args =>
    simp only [step, Log, handedOff]
    split <;> simp [emitted]
  | recv =>
    cases h : s.out with
    | nil => simp [step, writerStep_nil lib s h, handedOff]
    | cons f rest =>
      obtain ⟨h1, h2, h3, _⟩ := writerStep_cons lib s f rest h
      simp [step, emitted, h1, h2, h3, h, handedOff]

theorem handedOff_cons (conf : config) (e : Event) (evs : List Event) :
    handedOff conf (e :: evs) = handedOff conf [e] ++ handedOff conf evs := by
  cases e with
  | tick now => simp [handedOff]
  | log level msg args => simp only [handedOff]; split <;> simp
  | recv => simp [handedOff]

theorem run_emitted (lib : Lib) (s : System) (evs : List Event) :
    (run lib s evs).handle = s.handle ∧
      emitted lib (run lib s evs) =
        emitted lib s ++ (handedOff s.handle.conf evs).map (renderedLine lib s.handle) := by
  induction evs generalizing s with
  | nil => simp [run, handedOff]
  | cons e evs ih =>
    obtain ⟨i1, i2⟩ := ih (step lib s e)
    have hrun : run lib s (e :: evs) = run lib (step lib s e) evs := rfl
    rw [hrun, i1, i2, step_handle, step_emitted, handedOff_cons s.handle.conf e evs]
    simp


theorem New_exampleSystem :
    New exampleLib 0 exampleFile exampleOpts = Except.ok exampleSystem := by
  rfl

theorem Log_in_band (s : System) (level : Level) (msg : String) (args : List Value)
    (h : s.handle.conf.minLevel ≤ level ∧ level ≤ s.handle.conf.maxLevel) :
    Log s level msg args = { s with out := s.out ++ [{ msg := msg, args := args }] } := by
  have hn : ¬ (level < s.handle.conf.minLevel ∨ level > s.handle.conf.maxLevel) := by
    intro hc
    rcases hc with hc | hc
    · exact absurd h.1 (not_le.mpr hc)
    · exact absurd h.2 (not_le.mpr hc)
  simp only [Log, if_neg hn]

theorem Log_out_of_band (s : System) (level : Level) (msg : String) (args : List Value)
    (h : ¬ (s.handle.conf.minLevel ≤ level ∧ level ≤ s.handle.conf.maxLevel)) :
    Log s level msg args = s := by
  have hc : level < s.handle.conf.minLevel ∨ level > s.handle.conf.maxLevel := by
    by_cases h1 : s.handle.conf.minLevel ≤ level
    · right
      exact not_le.mp (fun h2 => h ⟨h1, h2⟩)
    · left
      exact not_le.mp h1
  simp only [Log, if_pos hc]

theorem Log_out_iff (s : System) (level : Level) (msg : String) (args : List Value) :
    (Log s level msg args).out = s.out ++ [{ msg := msg, args := args }] ↔
      s.handle.conf.minLevel ≤ level ∧ level ≤ s.handle.conf.maxLevel := by
  by_cases h : s.handle.conf.minLevel ≤ level ∧ level ≤ s.handle.conf.maxLevel
  · simp [Log_in_band s level msg args h, h]
  · simp [Log_out_of_band s level msg args h, h]

theorem writer_drain (lib : Lib) (s : System) (k : Nat) :
    (writer lib (s.out.length + k) s).writes =
        s.writes ++ s.out.map (renderedLine lib s.handle) ∧
      (writer lib (s.out.length + k) s).out = [] := by
  obtain ⟨h1, h2, _, _⟩ := writer_spec lib (s.out.length + k) s
  constructor
  · rw [h1, List.take_of_length_le (Nat.le_add_right _ _)]
  · rw [h2, List.drop_of_length_le (Nat.le_add_right _ _)]

theorem renderedLine_eq (lib : Lib) (l : MinLog) (f : logFunc) :
    renderedLine lib l f =
      l.logTime ++ " " ++ "[INFO]" ++ " " ++ composeMsg lib f.msg f.args ++ "\n" := by
  rw [renderedLine, call_fst]
  apply String.ext
  simp

theorem take_length_data (b : String) : String.mk (b.data.take b.length) = b := by
  cases b
  simp [String.length]

/-! ## The claims -/

/-- C1: `Log` hands a record to the writer, and the writer then makes one more
`Write` call than without it, exactly when `minLevel ≤ level ≤ maxLevel`;
outside that band the call leaves the system as it was, so the writer makes the
same calls and the file holds the same bytes as without it. -/
theorem Log_writes_iff_in_band (lib : Lib) (s : System) (level : Level) (msg : String)
    (args : List Value) :
    ((Log s level msg args).out = s.out ++ [{ msg := msg, args := args }] ↔
      s.handle.conf.minLevel ≤ level ∧ level ≤ s.handle.conf.maxLevel) ∧
    ((writer lib (s.out.length + 1) (Log s level msg args)).writes.length =
        (writer lib (s.out.length + 1) s).writes.length + 1 ↔
      s.handle.conf.minLevel ≤ level ∧ level ≤ s.handle.conf.maxLevel) ∧
    ((s.handle.conf.minLevel ≤ level ∧ level ≤ s.handle.conf.maxLevel) ∨
      (Log s level msg args = s ∧
        (writer lib (s.out.length + 1) (Log s level msg args)).writes =
          (writer lib (s.out.length + 1) s).writes ∧
        (writer lib (s.out.length + 1) (Log s level msg args)).file.data =
          (writer lib (s.out.length + 1) s).file.data)) := by
  refine ⟨Log_out_iff s level msg args, ?_, ?_⟩
  · by_cases h : s.handle.conf.minLevel ≤ level ∧ level ≤ s.handle.conf.maxLevel
    · have hd := (writer_drain lib s 1).1
      have hd2 := (writer_drain lib (Log s level msg args) 0).1
      rw [Log_in_band s level msg args h] at hd2 ⊢
      simp only [List.length_append, List.length_singleton, Nat.add_zero] at hd2
      rw [hd, hd2]
      simp only [List.length_append, List.length_map, List.length_singleton]
      exact ⟨fun _ => h, fun _ => (Nat.add_assoc _ _ _).symm⟩
    · rw [Log_out_of_band s level msg args h]
      simp [h]
  · by_cases h : s.handle.conf.minLevel ≤ level ∧ level ≤ s.handle.conf.maxLevel
    · exact Or.inl h
    · right
      rw [Log_out_of_band s level msg args h]
      exact ⟨rfl, rfl, rfl⟩

/-- C2: for severities inside the band the next write of the writer is exactly
the timestamp string of the handle, a space, `[INFO]`, a space, the composed message and
a newline; the severity does not enter, so two in-band calls that differ only
in severity leave the same system; when the writer is idle, the target is
non-nil and the file accepts the write in full, these bytes are what the file
gains. -/
theorem Log_line_bytes (lib : Lib) (s : System) (l1 l2 : Level) (msg : String)
    (args : List Value)
    (h1 : s.handle.conf.minLevel ≤ l1 ∧ l1 ≤ s.handle.conf.maxLevel)
    (h2 : s.handle.conf.minLevel ≤ l2 ∧ l2 ≤ s.handle.conf.maxLevel) :
    (writer lib (s.out.length + 1) (Log s l1 msg args)).writes =
        (writer lib s.out.length s).writes ++
          [s.handle.logTime ++ " " ++ "[INFO]" ++ " " ++ composeMsg lib msg args ++ "\n"] ∧
      Log s l1 msg args = Log s l2 msg args ∧
      (∀ pool : List Buffer,
        (logFunc.call lib s.handle pool { msg := msg, args := args }).1 =
          s.handle.logTime ++ " " ++ "[INFO]" ++ " " ++ composeMsg lib msg args ++ "\n") ∧
      (∀ fd : osFile, s.out = [] → s.m.conf.target = some fd →
        (∀ k b, b.length ≤ s.file.accept k b) →
        (writerStep lib (Log s l1 msg args)).file.data =
          s.file.data ++
            (s.handle.logTime ++ " " ++ "[INFO]" ++ " " ++ composeMsg lib msg args ++ "\n")) := by
  refine ⟨?_, ?_, ?_, ?_⟩
  · have hd := (writer_drain lib s 0).1
    have hd2 := (writer_drain lib (Log s l1 msg args) 0).1
    rw [Log_in_band s l1 msg args h1] at hd2 ⊢
    simp only [List.length_append, List.length_singleton, Nat.add_zero] at hd2 hd
    rw [hd, hd2]
    simp [renderedLine_eq]
  · rw [Log_in_band s l1 msg args h1, Log_in_band s l2 msg args h2]
  · intro pool
    rw [call_fst_eq_renderedLine, renderedLine_eq]
  · intro fd hidle htarget hacc
    rw [Log_in_band s l1 msg args h1]
    simp only [writerStep, hidle, List.nil_append, osFileWrite, htarget,
      call_fst_eq_renderedLine, renderedLine_eq]
    rw [Nat.min_eq_right (hacc _ _), take_length_data]

/-- Witness of C2: the end-to-end example, `minLevel = Info`, `maxLevel = Fatal`,
`Info("hello")` against `Log(ErrorLevel, "hello")`. -/
theorem Log_line_bytes_witness :
    (exampleSystem.handle.conf.minLevel ≤ InfoLevel ∧
        InfoLevel ≤ exampleSystem.handle.conf.maxLevel) ∧
      (writer exampleLib 1 (Info exampleSystem "hello")).writes =
        ["2006-01-02T15:04:05Z07:00@0 [INFO] hello\n"] ∧
      Info exampleSystem "hello" = Log exampleSystem ErrorLevel "hello" [] ∧
      (writerStep exampleLib (Info exampleSystem "hello")).file.data =
        "2006-01-02T15:04:05Z07:00@0 [INFO] hello\n" := by
  have h := Log_line_bytes exampleLib exampleSystem InfoLevel ErrorLevel "hello" []
    (by decide) (by decide)
  refine ⟨by decide, ?_, h.2.1, ?_⟩
  · have h1 := h.1
    exact h1
  · have h4 := h.2.2.2 1 rfl rfl (fun _ _ => Nat.le_refl _)
    exact h4

/-- C3, as stated, fails: with an empty template and the two string operands
`"a"` and `"b"` the composed message is `"ab"`, while the space-joined
concatenation of their representations is `"a b"`. -/
theorem composeMsg_strings_not_space_joined :
    composeMsg exampleLib "" [Value.str "a", Value.str "b"] = "ab" ∧
      " ".intercalate ([Value.str "a", Value.str "b"].map Value.format) = "a b" ∧
      composeMsg exampleLib "" [Value.str "a", Value.str "b"] ≠
        " ".intercalate ([Value.str "a", Value.str "b"].map Value.format) := by
  decide

/-- C3, amended: with an empty template and a non-empty argument list the
composed message is the concatenation of the default representations in
argument order, with one space between two neighbours exactly when neither of
them is a string; when no argument is a string this is the space-joined
concatenation. -/
theorem composeMsg_empty_template (lib : Lib) (args : List Value) (hne : args ≠ []) :
    composeMsg lib "" args = joinOperands args ∧
      ((∀ a ∈ args, a.isString = false) →
        composeMsg lib "" args = " ".intercalate (args.map Value.format)) := by
  have hlen : ¬ args.length = 0 := by
    intro h
    exact hne (List.length_eq_zero.mp h)
  have hc : composeMsg lib "" args = joinOperands args := by
    simp only [composeMsg, if_neg hlen, ne_eq, not_true_eq_false, if_false]
    exact Sprint_eq_joinOperands args
  exact ⟨hc, fun h => by rw [hc, joinOperands_no_string args h]⟩

/-- Witness of C3 amended: `1, "a", 2, 3` gives `1a2 3`, and the string-free
list `1, true, nil` gives the space-joined `1 true <nil>`. -/
theorem composeMsg_empty_template_witness :
    [Value.int 1, Value.str "a", Value.int 2, Value.int 3] ≠ [] ∧
      composeMsg exampleLib "" [Value.int 1, Value.str "a", Value.int 2, Value.int 3] =
        joinOperands [Value.int 1, Value.str "a", Value.int 2, Value.int 3] ∧
      joinOperands [Value.int 1, Value.str "a", Value.int 2, Value.int 3] = "1a2 3" ∧
      composeMsg exampleLib "" [Value.int 1, Value.bool true, Value.nil] =
        " ".intercalate ([Value.int 1, Value.bool true, Value.nil].map Value.format) ∧
      " ".intercalate ([Value.int 1, Value.bool true, Value.nil].map Value.format) =
        "1 true <nil>" :=
  ⟨by simp,
    (composeMsg_empty_template exampleLib
      [Value.int 1, Value.str "a", Value.int 2, Value.int 3] (by simp)).1,
    by decide,
    (composeMsg_empty_template exampleLib [Value.int 1, Value.bool true, Value.nil]
      (by simp)).2 (by decide),
    by decide⟩

/-- C4: with an empty argument list `composeMsg` returns the template itself,
whatever `Sprintf` would make of it. -/
theorem composeMsg_no_args (lib : Lib) (t : String) : composeMsg lib t [] = t := by
  simp [composeMsg]

/-- C5 at its failing input: after `New`, a tick publishes the new string
`...@1` in the variable `m` of `New`, yet the record logged and rendered after
that tick through the returned handle carries the construction-time string
`...@0`. -/
theorem tick_not_seen_through_handle :
    New exampleLib 0 exampleFile exampleOpts = Except.ok exampleSystem ∧
      (run exampleLib exampleSystem
          [Event.tick 1, Event.log InfoLevel "hello" [], Event.recv]).m.logTime =
        "2006-01-02T15:04:05Z07:00@1" ∧
      (run exampleLib exampleSystem
          [Event.tick 1, Event.log InfoLevel "hello" [], Event.recv]).writes =
        ["2006-01-02T15:04:05Z07:00@0 [INFO] hello\n"] :=
  ⟨rfl, by decide, by decide⟩

/-- C6: along every schedule of ticks, `Log` calls and writer iterations, once
the writer has taken every pending record, the `Write` calls it made are
exactly the rendered lines of the records in hand-off order, one call per
record, and no record is left over. -/
theorem writes_follow_handoff_order (lib : Lib) (s : System) (evs : List Event) :
    (writer lib (run lib s evs).out.length (run lib s evs)).writes =
        s.writes ++
          (s.out ++ handedOff s.handle.conf evs).map
            (fun f => s.handle.logTime ++ " " ++ "[INFO]" ++ " " ++
              composeMsg lib f.msg f.args ++ "\n") ∧
      (writer lib (run lib s evs).out.length (run lib s evs)).out = [] ∧
      (writer lib (run lib s evs).out.length (run lib s evs)).writes.length =
        s.writes.length + s.out.length + (handedOff s.handle.conf evs).length := by
  obtain ⟨hh, he⟩ := run_emitted lib s evs
  obtain ⟨hw, ho⟩ := writer_drain lib (run lib s evs) 0
  simp only [Nat.add_zero] at hw ho
  have hfun : (fun f : logFunc => s.handle.logTime ++ " " ++ "[INFO]" ++ " " ++
      composeMsg lib f.msg f.args ++ "\n") = renderedLine lib s.handle := by
    funext f
    rw [renderedLine_eq]
  have hall : (writer lib (run lib s evs).out.length (run lib s evs)).writes =
      s.writes ++ (s.out ++ handedOff s.handle.conf evs).map (renderedLine lib s.handle) := by
    rw [hw]
    have := he
    simp only [emitted, hh] at this
    rw [hh, this]
    simp
  refine ⟨?_, ho, ?_⟩
  · rw [hfun]
    exact hall
  · rw [hall]
    simp [Nat.add_assoc]

/-- C7: `Info(m)` is `Log(InfoLevel, m)` with no arguments and `Infof(t, a)` is
`Log(InfoLevel, t, a)` with `a` as the single operand (a slice stays one
operand); both hand a record off exactly when `minLevel ≤ InfoLevel ≤ maxLevel`
and the writer makes the same `Write` calls for them as for the `Log` call. -/
theorem Info_Infof_eq_Log (lib : Lib) (s : System) (m t : String) (a : Value) (n : Nat) :
    Info s m = Log s InfoLevel m [] ∧
      Infof s t a = Log s InfoLevel t [a] ∧
      ((Info s m).out = s.out ++ [{ msg := m, args := [] }] ↔
        s.handle.conf.minLevel ≤ InfoLevel ∧ InfoLevel ≤ s.handle.conf.maxLevel) ∧
      ((Infof s t a).out = s.out ++ [{ msg := t, args := [a] }] ↔
        s.handle.conf.minLevel ≤ InfoLevel ∧ InfoLevel ≤ s.handle.conf.maxLevel) ∧
      (writer lib n (Info s m)).writes = (writer lib n (Log s InfoLevel m [])).writes ∧
      (writer lib n (Infof s t a)).writes = (writer lib n (Log s InfoLevel t [a])).writes :=
  ⟨rfl, rfl, Log_out_iff s InfoLevel m [], Log_out_iff s InfoLevel t [a], rfl, rfl⟩

/-- C8: `New` with no options succeeds and yields `minLevel = DebugLevel`,
`maxLevel = FatalLevel`, the layout `time.RFC3339` and an interval of 1000 ms;
the seven levels are strictly increasing from `DebugLevel` to `FatalLevel`, and
`Log` at each of them hands its record off. -/
theorem New_defaults (lib : Lib) (now : Time) (file : File) (msg : String)
    (args : List Value) :
    ∃ s : System, New lib now file [] = Except.ok s ∧
      s.handle.conf.minLevel = DebugLevel ∧ s.handle.conf.maxLevel = FatalLevel ∧
      s.handle.conf.dateformat = RFC3339 ∧ s.handle.conf.dateUpdateInterval = 1000 ∧
      s.handle.logTime = lib.Format now RFC3339 ∧
      (DebugLevel < InfoLevel ∧ InfoLevel < WarnLevel ∧ WarnLevel < ErrorLevel ∧
        ErrorLevel < DPanicLevel ∧ DPanicLevel < PanicLevel ∧ PanicLevel < FatalLevel) ∧
      (Log s DebugLevel msg args).out = s.out ++ [{ msg := msg, args := args }] ∧
      (Log s InfoLevel msg args).out = s.out ++ [{ msg := msg, args := args }] ∧
      (Log s WarnLevel msg args).out = s.out ++ [{ msg := msg, args := args }] ∧
      (Log s ErrorLevel msg args).out = s.out ++ [{ msg := msg, args := args }] ∧
      (Log s DPanicLevel msg args).out = s.out ++ [{ msg := msg, args := args }] ∧
      (Log s PanicLevel msg args).out = s.out ++ [{ msg := msg, args := args }] ∧
      (Log s FatalLevel msg args).out = s.out ++ [{ msg := msg, args := args }] := by
  refine ⟨_, rfl, rfl, rfl, rfl, rfl, rfl, by decide, ?_, ?_, ?_, ?_, ?_, ?_, ?_⟩ <;>
    exact (Log_out_iff _ _ msg args).mpr (show DebugLevel ≤ _ ∧ _ ≤ FatalLevel by decide)

/-- C9: whatever the sink does with each write (the file may accept all, some
or none of the bytes, the target may be nil), the writer makes the same `Write`
calls: one per record taken, each with the line of that record, none repeated, and
the records after a failed write are taken as before; `Log` neither reads nor
returns anything of the sink. -/
theorem writer_ignores_write_outcome (lib : Lib) (s : System) (file : File)
    (target : Ptr osFile) (n : Nat) (level : Level) (msg : String) (args : List Value) :
    (writer lib n
        { s with
          file := file
          m := { s.m with conf := { s.m.conf with target := target } } }).writes =
        (writer lib n s).writes ∧
      (writer lib n s).writes = s.writes ++ (s.out.take n).map (renderedLine lib s.handle) ∧
      (writer lib n s).writes.length = s.writes.length + min n s.out.length ∧
      (writer lib n s).out = s.out.drop n ∧
      Log { s with file := file } level msg args =
        { Log s level msg args with file := file } := by
  obtain ⟨h1, h2, _, _⟩ := writer_spec lib n s
  obtain ⟨g1, _, _, _⟩ := writer_spec lib n
    { s with file := file, m := { s.m with conf := { s.m.conf with target := target } } }
  refine ⟨?_, h1, ?_, h2, ?_⟩
  · rw [g1, h1]
  · rw [h1]
    simp
  · simp only [Log]
    split <;> rfl

/-- C10: the bytes a render task returns do not depend on what the pool holds
when it starts: an empty pool (fresh buffer) and a pool whose first buffer has
any contents and any read offset give the same line, which is the timestamp,
` [INFO] `, the composed message and a newline, and nothing else. -/
theorem render_ignores_pooled_bytes (lib : Lib) (l : MinLog) (f : logFunc) (b : Buffer)
    (rest pool1 pool2 : List Buffer) :
    (f.call lib l (b :: rest)).1 = (f.call lib l []).1 ∧
      (f.call lib l pool1).1 = (f.call lib l pool2).1 ∧
      (f.call lib l (b :: rest)).1 =
        l.logTime ++ " [INFO] " ++ composeMsg lib f.msg f.args ++ "\n" := by
  refine ⟨?_, ?_, call_fst lib l (b :: rest) f⟩
  · rw [call_fst, call_fst]
  · rw [call_fst, call_fst]

end minlog
